import Mathlib

/-!
Shallow embedding of the registration / phone-verification flow of the
luxury-fashion storefront mockup (two near-duplicate React variants:
`src/unnamed/part_000` and `src/src/App.tsx`).

Strings are modelled as `List Char` (JavaScript strings are sequences of
characters; `value.replace(/\D/g, '')` becomes a character filter,
`slice` becomes `take`/`drop`).  The React component state (`useState`
hooks) is collected into one `AppState` record, and every event handler
becomes a pure state-transformer.  Simulated async delays (`setTimeout`)
never reject in the source, so an async handler is modelled by its
completed net effect on the state.  View-only state that no claim touches
(the brand-suggestion dropdown visibility and its suggestion list, and
DOM focus of the OTP inputs) is not modelled.
-/

/-- `value.replace(/\D/g, '')` — keep only the digit characters. -/
def digitsOf (value : List Char) : List Char :=
  value.filter (fun c => c.isDigit)

/-- The branch block of `formatPhoneNumber` (part_000 / App.tsx lines 21-30),
applied to the already-stripped digit string `numbers`.
`slice (a, b)` is `(drop a).take (b - a)`, `slice a` is `drop a`. -/
def formatDigits (numbers : List Char) : List Char :=
  if numbers.length ≤ 2 then numbers
  else if numbers.length ≤ 5 then
    numbers.take 2 ++ ' ' :: numbers.drop 2
  else if numbers.length ≤ 8 then
    numbers.take 2 ++ ' ' :: ((numbers.drop 2).take 3 ++ ' ' :: numbers.drop 5)
  else
    numbers.take 2 ++ ' ' :: ((numbers.drop 2).take 3 ++ ' ' :: (numbers.drop 5).take 4)

/-- `formatPhoneNumber` (both variants, lines 21-30): strip non-digits,
then format as `05X XXX XXXX`, keeping at most 9 digits. -/
def formatPhoneNumber (value : List Char) : List Char :=
  formatDigits (digitsOf value)

/-- `validateUAEPhone` (both variants, lines 32-35): the digit string has
length 9 and starts with "05". -/
def validateUAEPhone (phone : List Char) : Bool :=
  let numbers := digitsOf phone
  numbers.length == 9 && numbers.take 2 == ['0', '5']

/-- `formatPhoneForDisplay` (both variants, lines 140-143). -/
def formatPhoneForDisplay (phone : List Char) : List Char :=
  let numbers := digitsOf phone
  "+971 ".toList ++ (numbers.take 2 ++ ' ' :: ((numbers.drop 2).take 3 ++ ' ' :: (numbers.drop 5).take 4))

/-- JavaScript `String.prototype.trim` on the front only:
drop leading whitespace. -/
def trimStart (s : List Char) : List Char :=
  s.dropWhile (fun c => c.isWhitespace)

/-- JavaScript `String.prototype.trim` on the back only:
drop trailing whitespace. -/
def trimEnd (s : List Char) : List Char :=
  (s.reverse.dropWhile (fun c => c.isWhitespace)).reverse

/-- JavaScript `String.prototype.trim`: drop leading and trailing
whitespace. -/
def trim (s : List Char) : List Char :=
  trimEnd (trimStart s)

/-- JavaScript `String.prototype.split(',')`: cut at every comma; the
empty string yields `[""]`. -/
def splitOnComma : List Char → List (List Char)
  | [] => [[]]
  | c :: rest =>
    if c = ',' then [] :: splitOnComma rest
    else
      match splitOnComma rest with
      | [] => [[c]]
      | p :: ps => (c :: p) :: ps

/-- JavaScript `Array.prototype.join` with separator `", "`. -/
def joinCommaSpace : List (List Char) → List Char
  | [] => []
  | [b] => b
  | b :: rest => b ++ ',' :: ' ' :: joinCommaSpace rest

/-- `LUXURY_BRANDS` (part_000 lines 7-18). -/
def LUXURY_BRANDS : List (List Char) :=
  ["Louis Vuitton".toList, "Chanel".toList, "Gucci".toList, "Hermès".toList,
   "Dior".toList, "Prada".toList, "Burberry".toList, "Versace".toList,
   "Balenciaga".toList, "Givenchy".toList]

/-! ## The component state -/

/-- The five screens of `part_000` (line 5).  The `App.tsx` variant omits
`apple_signin`. -/
inductive Screen where
  | landing
  | registration_form
  | verify
  | success
  | apple_signin
deriving DecidableEq, Repr

/-- The social-auth provider tag. -/
inductive SocialProvider where
  | apple
  | google
deriving DecidableEq, Repr

/-- The `profile` record (`useState` at lines 40-48 of both variants). -/
structure Profile where
  email : List Char
  salutation : List Char
  firstName : List Char
  surname : List Char
  phone : List Char
  birthday : List Char
  favoriteDesigners : List Char
deriving DecidableEq, Repr

/-- The all-empty profile: the `useState` initial value (lines 40-48) and
the value assigned by the "use a different registration method" button. -/
def emptyProfile : Profile :=
  { email := [], salutation := [], firstName := [], surname := [],
    phone := [], birthday := [], favoriteDesigners := [] }

/-- The mutable component state: one field per `useState` hook that
carries model (non-view) state.  `countdown` is an `Int` so that the
stated "never negative" invariant is a real statement about the code
rather than a fact about the carrier type. -/
structure AppState where
  currentScreen : Screen
  profile : Profile
  verificationCode : List (List Char)
  isVerifying : Bool
  verificationError : List Char
  countdown : Int
  canResend : Bool
  phoneError : List Char
  isViaSocialAuth : Bool
  isEmailVerified : Bool
deriving DecidableEq, Repr

/-- The initial state: the `useState` initial values (lines 39-58). -/
def initialState : AppState :=
  { currentScreen := Screen.landing
    profile := emptyProfile
    verificationCode := [[], [], [], [], [], []]
    isVerifying := false
    verificationError := []
    countdown := 60
    canResend := false
    phoneError := []
    isViaSocialAuth := false
    isEmailVerified := false }

/-! ## Event handlers -/

/-- The profile fields written through the generic `handleProfileChange`
at the call sites in the JSX (the phone field instead goes through
`handlePhoneChange`). -/
inductive ProfileField where
  | email
  | salutation
  | firstName
  | surname
  | birthday
  | favoriteDesigners
deriving DecidableEq, Repr

/-- One field overwrite of the profile record, as performed by the spread
update inside `handleProfileChange`. -/
def setField (p : Profile) : ProfileField → List Char → Profile
  | ProfileField.email, v => { p with email := v }
  | ProfileField.salutation, v => { p with salutation := v }
  | ProfileField.firstName, v => { p with firstName := v }
  | ProfileField.surname, v => { p with surname := v }
  | ProfileField.birthday, v => { p with birthday := v }
  | ProfileField.favoriteDesigners, v => { p with favoriteDesigners := v }

/-- `handleProfileChange` (lines 163-168 of both variants). -/
def handleProfileChange (s : AppState) (field : ProfileField) (value : List Char) : AppState :=
  { s with profile := setField s.profile field value }

/-- `handlePhoneChange` (lines 171-182 of both variants): store the
formatted phone and recompute the phone error synchronously. -/
def handlePhoneChange (s : AppState) (raw : List Char) : AppState :=
  let formattedPhone := formatPhoneNumber raw
  let s' := { s with profile := { s.profile with phone := formattedPhone } }
  if formattedPhone.isEmpty then
    { s' with phoneError := [] }
  else if ¬ validateUAEPhone formattedPhone then
    { s' with phoneError := "Please enter a valid UAE mobile number (05X XXX XXXX)".toList }
  else
    { s' with phoneError := [] }

/-- `handleOTPChange` (lines 98-109 of both variants): truncate to the
first character, write slot `index`, clear the OTP error.  (The focus
auto-advance touches the DOM only.) -/
def handleOTPChange (s : AppState) (index : Nat) (value : List Char) : AppState :=
  let value := if value.length > 1 then value.take 1 else value
  { s with verificationCode := s.verificationCode.set index value
           verificationError := [] }

/-- `handleVerify` (lines 112-129 of both variants).  The simulated API
call never rejects, so the async branch is modelled by its completed
effect: `isVerifying` goes `true` then back to `false` and the screen
becomes `success`. -/
def handleVerify (s : AppState) : AppState :=
  let code := s.verificationCode.flatten
  if code.length ≠ 6 then
    { s with verificationError := "Please enter a valid 6-digit code".toList }
  else
    { s with isVerifying := false, currentScreen := Screen.success }

/-- `handleResendCode` (lines 132-137 of both variants). -/
def handleResendCode (s : AppState) : AppState :=
  { s with canResend := false, countdown := 60 }

/-- `handleVerification` (lines 146-160 of both variants): the
registration_form "Continue" button.  The two alert branches leave the
state unchanged (an alert is view-only). -/
def handleVerification (s : AppState) : AppState :=
  if s.profile.salutation.isEmpty || s.profile.firstName.isEmpty ||
     s.profile.surname.isEmpty || s.profile.phone.isEmpty then
    s
  else if ¬ validateUAEPhone s.profile.phone then
    s
  else
    { s with currentScreen := Screen.verify }

/-- `handleEmailVerification` (lines 185-189 of both variants), modelled
by its completed effect. -/
def handleEmailVerification (s : AppState) : AppState :=
  { s with isEmailVerified := true }

/-- `handleSocialAuth` of the `part_000` variant (lines 192-226):
overwrite the profile with the mock data, reset the other fields, mark
the email verified and the social-auth flag, and go straight to
`success`.  The `provider` tag is not inspected (exactly as in the
source). -/
def handleSocialAuth (s : AppState) (_provider : SocialProvider) : AppState :=
  { s with
    profile :=
      { email := "user@example.com".toList
        firstName := "John".toList
        surname := "Doe".toList
        salutation := []
        phone := []
        birthday := []
        favoriteDesigners := [] }
    isEmailVerified := true
    isViaSocialAuth := true
    currentScreen := Screen.success }

namespace AppVariant

/-- `handleSocialAuth` of the `App.tsx` variant (lines 192-208): merge
the mock data into the existing profile (no field reset, a different
mock email) and go to `registration_form`. -/
def handleSocialAuth (s : AppState) (_provider : SocialProvider) : AppState :=
  { s with
    profile :=
      { s.profile with
        email := "johndoe@icloud.com".toList
        firstName := "John".toList
        surname := "Doe".toList }
    isEmailVerified := true
    isViaSocialAuth := true
    currentScreen := Screen.registration_form }

end AppVariant

/-- `getSelectedBrands` (part_000 lines 262-266): JS truthiness of the
string, then split on commas and trim each entry. -/
def getSelectedBrands (favoriteDesigners : List Char) : List (List Char) :=
  if favoriteDesigners.isEmpty then []
  else (splitOnComma favoriteDesigners).map trim

/-- `selectBrand` (part_000 lines 244-254): append the brand to the
comma-joined list unless it is already selected.  (Hiding the suggestion
dropdown and clearing the DOM input are view-only.) -/
def selectBrand (s : AppState) (brand : List Char) : AppState :=
  let currentBrands := getSelectedBrands s.profile.favoriteDesigners
  if brand ∈ currentBrands then s
  else
    { s with profile :=
        { s.profile with
          favoriteDesigners := joinCommaSpace (currentBrands ++ [brand]) } }

/-- `removeBrand` (part_000 lines 256-260). -/
def removeBrand (s : AppState) (brandToRemove : List Char) : AppState :=
  let currentBrands := getSelectedBrands s.profile.favoriteDesigners
  { s with profile :=
      { s.profile with
        favoriteDesigners :=
          joinCommaSpace (currentBrands.filter (fun brand => brand ≠ brandToRemove)) } }

/-- The "use a different registration method" button on the
registration_form screen (part_000 lines 474-487, App.tsx lines
518-531): reset the profile to all-empty, clear the social-auth flag, go
back to landing.  `isEmailVerified` is not touched. -/
def useDifferentMethod (s : AppState) : AppState :=
  { s with profile := emptyProfile
           isViaSocialAuth := false
           currentScreen := Screen.landing }

/-- The callback passed to `setCountdown` by the countdown interval
(lines 85-91 of both variants). -/
def tickUpdate (s : AppState) : AppState :=
  if s.countdown ≤ 1 then { s with canResend := true, countdown := 0 }
  else { s with countdown := s.countdown - 1 }

/-- One firing of the countdown interval.  The `useEffect` (lines 81-95)
installs the interval only while `currentScreen === "verify" &&
countdown > 0` and clears it otherwise, so a tick outside that guard
never happens (modelled as a no-op). -/
def countdownTick (s : AppState) : AppState :=
  if s.currentScreen = Screen.verify ∧ 0 < s.countdown then tickUpdate s
  else s

/-! ## The event system -/

/-- The user / timer events of the `part_000` variant, each guarded by
the screen on which its control is rendered. -/
inductive Act where
  | profileEdit (f : ProfileField) (v : List Char)
  | phoneEdit (v : List Char)
  | emailContinueBtn
  | appleButton
  | googleAuth
  | appleAuth
  | appleClose
  | registrationContinue
  | differentMethod
  | otpEdit (i : Nat) (v : List Char)
  | verifyBtn
  | resendBtn
  | tick
  | closeVerify
  | editPhone
  | retryEmail
  | selectBrandBtn (b : List Char)
  | removeBrandBtn (b : List Char)
deriving DecidableEq, Repr

/-- The transition function: dispatch each event to its handler, guarded
by the screen on which the triggering control exists in the JSX of
`part_000` (the resend button is rendered only once the countdown text
has reached 0). -/
def step (s : AppState) : Act → AppState
  | Act.profileEdit f v => handleProfileChange s f v
  | Act.phoneEdit v =>
    if s.currentScreen = Screen.registration_form ∨ s.currentScreen = Screen.success then
      handlePhoneChange s v
    else s
  | Act.emailContinueBtn =>
    if s.currentScreen = Screen.landing ∧ ¬ s.profile.email.isEmpty then
      { s with currentScreen := Screen.registration_form }
    else s
  | Act.appleButton =>
    if s.currentScreen = Screen.landing then
      { s with currentScreen := Screen.apple_signin }
    else s
  | Act.googleAuth =>
    if s.currentScreen = Screen.landing then handleSocialAuth s SocialProvider.google
    else s
  | Act.appleAuth =>
    if s.currentScreen = Screen.apple_signin then handleSocialAuth s SocialProvider.apple
    else s
  | Act.appleClose =>
    if s.currentScreen = Screen.apple_signin then
      { s with currentScreen := Screen.landing }
    else s
  | Act.registrationContinue =>
    if s.currentScreen = Screen.registration_form then handleVerification s
    else s
  | Act.differentMethod =>
    if s.currentScreen = Screen.registration_form then useDifferentMethod s
    else s
  | Act.otpEdit i v =>
    if s.currentScreen = Screen.verify then handleOTPChange s i v
    else s
  | Act.verifyBtn =>
    if s.currentScreen = Screen.verify then handleVerify s
    else s
  | Act.resendBtn =>
    if s.currentScreen = Screen.verify ∧ s.countdown ≤ 0 then handleResendCode s
    else s
  | Act.tick => countdownTick s
  | Act.closeVerify =>
    if s.currentScreen = Screen.verify then
      { s with currentScreen := Screen.registration_form }
    else s
  | Act.editPhone =>
    if s.currentScreen = Screen.verify then
      { s with currentScreen := Screen.registration_form }
    else s
  | Act.retryEmail =>
    if s.currentScreen = Screen.registration_form ∨ s.currentScreen = Screen.success then
      handleEmailVerification s
    else s
  | Act.selectBrandBtn b =>
    if s.currentScreen = Screen.registration_form then selectBrand s b
    else s
  | Act.removeBrandBtn b =>
    if s.currentScreen = Screen.registration_form then removeBrand s b
    else s

/-- The states reachable from the initial render. -/
inductive Reachable : AppState → Prop
  | init : Reachable initialState
  | next : ∀ (s : AppState) (a : Act), Reachable s → Reachable (step s a)

/-! ## Lemmas about the digit filter -/

lemma digitsOf_all_digits (s : List Char) : ∀ c ∈ digitsOf s, c.isDigit := by
  intro c hc
  exact List.of_mem_filter hc

lemma digitsOf_eq_self (l : List Char) (h : ∀ c ∈ l, c.isDigit) :
    digitsOf l = l :=
  List.filter_eq_self.mpr h

lemma digitsOf_append (a b : List Char) :
    digitsOf (a ++ b) = digitsOf a ++ digitsOf b :=
  List.filter_append ..

lemma digitsOf_cons_space (l : List Char) :
    digitsOf (' ' :: l) = digitsOf l := by
  simp [digitsOf, List.filter_cons]

lemma digitsOf_take (s : List Char) (n : Nat) (h : ∀ c ∈ s, c.isDigit) :
    digitsOf (s.take n) = s.take n :=
  digitsOf_eq_self _ (fun c hc => h c (List.mem_of_mem_take hc))

lemma digitsOf_drop (s : List Char) (n : Nat) (h : ∀ c ∈ s, c.isDigit) :
    digitsOf (s.drop n) = s.drop n :=
  digitsOf_eq_self _ (fun c hc => h c (List.mem_of_mem_drop hc))

lemma take_two_take_three (n : List Char) :
    n.take 2 ++ (n.drop 2).take 3 = n.take 5 :=
  (List.take_add ..).symm

lemma take_five_take_four (n : List Char) :
    n.take 5 ++ (n.drop 5).take 4 = n.take 9 :=
  (List.take_add ..).symm

/-- The digit content of a formatted digit string: the separators are
spaces, so filtering the digits back out gives the first 9 digits. -/
lemma digitsOf_formatDigits (n : List Char) (h : ∀ c ∈ n, c.isDigit) :
    digitsOf (formatDigits n) = n.take 9 := by
  have ht : ∀ k, digitsOf (n.take k) = n.take k := fun k => digitsOf_take n k h
  have hd : ∀ k, digitsOf (n.drop k) = n.drop k := fun k => digitsOf_drop n k h
  have hdt : ∀ k m, digitsOf ((n.drop k).take m) = (n.drop k).take m := fun k m =>
    digitsOf_take _ m (fun c hc => h c (List.mem_of_mem_drop hc))
  unfold formatDigits
  split
  · rename_i h2
    rw [digitsOf_eq_self n h, List.take_of_length_le (h2.trans (by omega))]
  · split
    · rename_i h2 h5
      rw [digitsOf_append, digitsOf_cons_space, ht, hd, List.take_append_drop,
        List.take_of_length_le (h5.trans (by omega))]
    · split
      · rename_i h2 h5 h8
        rw [digitsOf_append, digitsOf_cons_space, digitsOf_append, digitsOf_cons_space,
          ht, hdt, hd, ← List.append_assoc, take_two_take_three, List.take_append_drop,
          List.take_of_length_le (h8.trans (by omega))]
      · rw [digitsOf_append, digitsOf_cons_space, digitsOf_append, digitsOf_cons_space,
          ht, hdt, hdt, ← List.append_assoc, take_two_take_three, take_five_take_four]

/-- Stripping the digits back out of the `formatPhoneNumber` output yields
the input digits truncated to the first 9. -/
lemma digitsOf_formatPhoneNumber (s : List Char) :
    digitsOf (formatPhoneNumber s) = (digitsOf s).take 9 :=
  digitsOf_formatDigits (digitsOf s) (digitsOf_all_digits s)

/-- `formatDigits` only looks at the first 9 characters of its input. -/
lemma formatDigits_take_nine (n : List Char) :
    formatDigits (n.take 9) = formatDigits n := by
  by_cases h9 : n.length ≤ 9
  · rw [List.take_of_length_le h9]
  · have hlen : (n.take 9).length = 9 := by
      simp [List.length_take]
      omega
    unfold formatDigits
    rw [hlen]
    have h8 : ¬ n.length ≤ 8 := by omega
    simp only [show ¬ (9 : Nat) ≤ 2 from by omega, show ¬ (9 : Nat) ≤ 5 from by omega,
      show ¬ (9 : Nat) ≤ 8 from by omega, if_false, h8,
      show ¬ n.length ≤ 2 from by omega, show ¬ n.length ≤ 5 from by omega]
    rw [List.take_take, List.drop_take, List.take_take, List.drop_take, List.take_take]
    norm_num

/-! ## The claims about the pure phone functions -/

/-- Claim C2: for every input string `s`, the digits of
`formatPhoneNumber s` equal the digits of `s` truncated to the first 9,
and `formatPhoneNumber` is idempotent: applying it to its own output
(in particular to any already-formatted string) changes nothing. -/
theorem formatPhoneNumber_spec (s : List Char) :
    digitsOf (formatPhoneNumber s) = (digitsOf s).take 9
    ∧ formatPhoneNumber (formatPhoneNumber s) = formatPhoneNumber s := by
  refine ⟨digitsOf_formatPhoneNumber s, ?_⟩
  calc formatPhoneNumber (formatPhoneNumber s)
      = formatDigits (digitsOf (formatPhoneNumber s)) := rfl
    _ = formatDigits ((digitsOf s).take 9) := by rw [digitsOf_formatPhoneNumber]
    _ = formatDigits (digitsOf s) := formatDigits_take_nine _
    _ = formatPhoneNumber s := rfl

/-- Claim C3: `validateUAEPhone p` is `true` exactly when `p` has 9 digit
characters and they begin with "05"; it is `false` in every other case,
including the empty string. -/
theorem validateUAEPhone_spec (p : List Char) :
    (validateUAEPhone p = true ↔
      (digitsOf p).length = 9 ∧ (digitsOf p).take 2 = ['0', '5'])
    ∧ validateUAEPhone [] = false := by
  constructor
  · simp [validateUAEPhone]
  · decide

/-- Claim C4: `formatPhoneNumber "052123456" = "05 212 3456"` and
`formatPhoneForDisplay "05 212 3456" = "+971 05 212 3456"` bit for bit,
including the duplicated leading zero after the `+971` country prefix. -/
theorem phone_format_examples :
    formatPhoneNumber "052123456".toList = "05 212 3456".toList
    ∧ formatPhoneForDisplay "05 212 3456".toList = "+971 05 212 3456".toList := by
  decide

/-! ## Claims about individual handlers -/

/-- Claim C5: the two source variants disagree on the social-auth
transition target — the `part_000` handler goes to `success`, the
`App.tsx` handler goes to `registration_form` — so the two embedded
flows are not equivalent on the social-login path. -/
theorem handleSocialAuth_variants_differ (s : AppState) (p : SocialProvider) :
    (handleSocialAuth s p).currentScreen = Screen.success
    ∧ (AppVariant.handleSocialAuth s p).currentScreen = Screen.registration_form
    ∧ (handleSocialAuth s p).currentScreen ≠ (AppVariant.handleSocialAuth s p).currentScreen := by
  refine ⟨rfl, rfl, ?_⟩
  simp [handleSocialAuth, AppVariant.handleSocialAuth]

/-- Claim C8: every phone edit stores the formatted input and recomputes
the phone error synchronously — empty formatted phone: no error;
non-empty but failing UAE validation: the invalid-UAE-mobile message;
otherwise: no error. -/
theorem handlePhoneChange_spec (s : AppState) (raw : List Char) :
    (handlePhoneChange s raw).profile.phone = formatPhoneNumber raw
    ∧ (formatPhoneNumber raw = [] → (handlePhoneChange s raw).phoneError = [])
    ∧ (formatPhoneNumber raw ≠ [] → validateUAEPhone (formatPhoneNumber raw) = false →
        (handlePhoneChange s raw).phoneError =
          "Please enter a valid UAE mobile number (05X XXX XXXX)".toList)
    ∧ (formatPhoneNumber raw ≠ [] → validateUAEPhone (formatPhoneNumber raw) = true →
        (handlePhoneChange s raw).phoneError = []) := by
  simp only [handlePhoneChange]
  split_ifs with h1 h2 <;> simp_all

/-- Witness for C8: a concrete valid edit stores the formatted phone
with no error. -/
theorem handlePhoneChange_spec_witness :
    (handlePhoneChange initialState "052123456".toList).phoneError = [] :=
  (handlePhoneChange_spec initialState "052123456".toList).2.2.2 (by decide) (by decide)

/-- Claim C10: the "use a different registration method" action empties
every profile field and clears the social-auth flag but leaves
`isEmailVerified` unchanged: an email marked verified stays marked
verified after abandoning registration. -/
theorem useDifferentMethod_frame (s : AppState)
    (hscr : s.currentScreen = Screen.registration_form) :
    (step s Act.differentMethod).profile = emptyProfile
    ∧ (step s Act.differentMethod).isViaSocialAuth = false
    ∧ (step s Act.differentMethod).currentScreen = Screen.landing
    ∧ (step s Act.differentMethod).isEmailVerified = s.isEmailVerified := by
  simp [step, hscr, useDifferentMethod]

/-- Witness for C10: from a registration_form state whose email was
already marked verified, the flag survives the reset. -/
theorem useDifferentMethod_frame_witness :
    (step { initialState with
            currentScreen := Screen.registration_form
            isEmailVerified := true } Act.differentMethod).isEmailVerified = true :=
  (useDifferentMethod_frame _ rfl).2.2.2

/-- Claim C6: on the verify screen, submitting with the joined code
shorter than 6 characters sets the OTP-length error and stays on verify;
submitting with the joined code exactly 6 characters long reaches
`success` (the simulated delay never rejects) without touching the error
message. -/
theorem handleVerify_spec (s : AppState) (hscr : s.currentScreen = Screen.verify) :
    ((s.verificationCode.flatten).length < 6 →
        (step s Act.verifyBtn).verificationError = "Please enter a valid 6-digit code".toList
        ∧ (step s Act.verifyBtn).currentScreen = Screen.verify)
    ∧ ((s.verificationCode.flatten).length = 6 →
        (step s Act.verifyBtn).currentScreen = Screen.success
        ∧ (step s Act.verifyBtn).verificationError = s.verificationError) := by
  have hstep : step s Act.verifyBtn = handleVerify s := by simp [step, hscr]
  constructor
  · intro hlt
    rw [hstep]
    simp only [handleVerify]
    split_ifs with h
    · exact ⟨rfl, hscr⟩
    · omega
  · intro heq
    rw [hstep]
    simp only [handleVerify]
    split_ifs with h
    · omega
    · exact ⟨rfl, rfl⟩

/-- A verify-screen state with no OTP digit entered yet. -/
def verifyEmptyCode : AppState :=
  { initialState with currentScreen := Screen.verify }

/-- A verify-screen state with all six OTP digits entered. -/
def verifyFullCode : AppState :=
  { initialState with
    currentScreen := Screen.verify
    verificationCode := [['1'], ['2'], ['3'], ['4'], ['5'], ['6']] }

/-- Witness for C6: with no digit entered the submit is rejected in
place; with six digits it reaches the success screen. -/
theorem handleVerify_spec_witness :
    ((step verifyEmptyCode Act.verifyBtn).currentScreen = Screen.verify
      ∧ (step verifyEmptyCode Act.verifyBtn).verificationError =
          "Please enter a valid 6-digit code".toList)
    ∧ (step verifyFullCode Act.verifyBtn).currentScreen = Screen.success :=
  ⟨⟨((handleVerify_spec verifyEmptyCode rfl).1 (by decide)).2,
    ((handleVerify_spec verifyEmptyCode rfl).1 (by decide)).1⟩,
   ((handleVerify_spec verifyFullCode rfl).2 (by decide)).1⟩

/-! ## Claim C1: entering the verify screen does not re-initialize the OTP state -/

/-- A concrete run: register with valid data, enter verify, type an OTP
digit, let one countdown tick fire, close the verify dialog, and stand
on registration_form again with all guards of the "Continue" action
still satisfied. -/
def reentryState : AppState :=
  List.foldl step initialState
    [Act.profileEdit ProfileField.email "a".toList,
     Act.emailContinueBtn,
     Act.profileEdit ProfileField.salutation "Mr".toList,
     Act.profileEdit ProfileField.firstName "A".toList,
     Act.profileEdit ProfileField.surname "B".toList,
     Act.phoneEdit "052123456".toList,
     Act.registrationContinue,
     Act.otpEdit 0 "1".toList,
     Act.tick,
     Act.closeVerify]

/-- Counterexample to claim C1 as stated: from `reentryState` the
"Continue" action fires with salutation, firstName, surname and phone
all non-empty and the phone passing UAE validation, and it does reach
the verify screen — but `Countdown` is 59 (not 60) and
`VerificationCode` still holds the digit typed on the previous visit
(not 6 empty slots): `handleVerification` performs no re-initialization,
so state leaks between visits. -/
theorem handleVerification_reinit_cex :
    reentryState.currentScreen = Screen.registration_form
    ∧ reentryState.profile.salutation ≠ []
    ∧ reentryState.profile.firstName ≠ []
    ∧ reentryState.profile.surname ≠ []
    ∧ reentryState.profile.phone ≠ []
    ∧ validateUAEPhone reentryState.profile.phone = true
    ∧ (step reentryState Act.registrationContinue).currentScreen = Screen.verify
    ∧ ¬ (step reentryState Act.registrationContinue).countdown = 60
    ∧ ¬ (step reentryState Act.registrationContinue).verificationCode
        = [[], [], [], [], [], []] := by
  decide

/-- Claim C1 (amended): when the "Continue" action on the
registration_form screen fires with salutation, firstName, surname and
phone all non-empty and the phone passing UAE validation, the controller
transitions to the verify screen but does not re-initialize the OTP
state: `VerificationCode`, `Countdown` and `canResend` keep their prior
values.  They are 6 empty slots, 60 and `false` only as the initial
component values, so a re-entry sees whatever the previous visit left
behind. -/
theorem handleVerification_spec (s : AppState)
    (hscr : s.currentScreen = Screen.registration_form)
    (h1 : s.profile.salutation ≠ []) (h2 : s.profile.firstName ≠ [])
    (h3 : s.profile.surname ≠ []) (h4 : s.profile.phone ≠ [])
    (h5 : validateUAEPhone s.profile.phone = true) :
    ((step s Act.registrationContinue).currentScreen = Screen.verify
      ∧ (step s Act.registrationContinue).verificationCode = s.verificationCode
      ∧ (step s Act.registrationContinue).countdown = s.countdown
      ∧ (step s Act.registrationContinue).canResend = s.canResend)
    ∧ (initialState.verificationCode = [[], [], [], [], [], []]
      ∧ initialState.countdown = 60
      ∧ initialState.canResend = false) := by
  have hstep : step s Act.registrationContinue = handleVerification s := by
    simp [step, hscr]
  rw [hstep]
  simp only [handleVerification]
  split_ifs with hA
  · exfalso
    simp only [Bool.or_eq_true, List.isEmpty_iff] at hA
    tauto
  · exact ⟨⟨rfl, rfl, rfl, rfl⟩, rfl, rfl, rfl⟩

/-- Witness for the amended C1: at the concrete re-entry state the
action reaches verify and carries the countdown over unchanged. -/
theorem handleVerification_spec_witness :
    (step reentryState Act.registrationContinue).currentScreen = Screen.verify
    ∧ (step reentryState Act.registrationContinue).countdown = reentryState.countdown := by
  have h := handleVerification_spec reentryState (by decide) (by decide) (by decide)
    (by decide) (by decide) (by decide)
  exact ⟨h.1.1, h.1.2.2.1⟩

/-! ## Claim C7: the countdown -/

/-- The countdown invariant: never negative, and the resend flag only
ever becomes `true` once the countdown has hit 0. -/
def CountdownInv (s : AppState) : Prop :=
  0 ≤ s.countdown ∧ (s.canResend = true → s.countdown = 0)

lemma countdownInv_init : CountdownInv initialState := by
  refine ⟨by norm_num [initialState], by simp [initialState]⟩

lemma countdownInv_step (s : AppState) (a : Act) (h : CountdownInv s) :
    CountdownInv (step s a) := by
  obtain ⟨h0, h1⟩ := h
  cases a with
  | profileEdit f v => exact ⟨h0, h1⟩
  | phoneEdit v =>
    simp only [step, handlePhoneChange]
    split_ifs <;> exact ⟨h0, h1⟩
  | emailContinueBtn =>
    simp only [step]
    split_ifs <;> exact ⟨h0, h1⟩
  | appleButton =>
    simp only [step]
    split_ifs <;> exact ⟨h0, h1⟩
  | googleAuth =>
    simp only [step, handleSocialAuth]
    split_ifs <;> exact ⟨h0, h1⟩
  | appleAuth =>
    simp only [step, handleSocialAuth]
    split_ifs <;> exact ⟨h0, h1⟩
  | appleClose =>
    simp only [step]
    split_ifs <;> exact ⟨h0, h1⟩
  | registrationContinue =>
    simp only [step, handleVerification]
    split_ifs <;> exact ⟨h0, h1⟩
  | differentMethod =>
    simp only [step, useDifferentMethod]
    split_ifs <;> exact ⟨h0, h1⟩
  | otpEdit i v =>
    simp only [step, handleOTPChange]
    split_ifs <;> exact ⟨h0, h1⟩
  | verifyBtn =>
    simp only [step, handleVerify]
    split_ifs <;> exact ⟨h0, h1⟩
  | resendBtn =>
    simp only [step, handleResendCode]
    split_ifs
    · exact ⟨by norm_num, fun hc => absurd hc Bool.false_ne_true⟩
    · exact ⟨h0, h1⟩
  | tick =>
    simp only [step, countdownTick, tickUpdate]
    split_ifs with hg hle
    · exact ⟨le_refl 0, fun _ => rfl⟩
    · obtain ⟨hv, hpos⟩ := hg
      refine ⟨?_, fun hc => ?_⟩
      · show (0 : Int) ≤ s.countdown - 1
        omega
      · have hz := h1 hc
        show s.countdown - 1 = 0
        omega
    · exact ⟨h0, h1⟩
  | closeVerify =>
    simp only [step]
    split_ifs <;> exact ⟨h0, h1⟩
  | editPhone =>
    simp only [step]
    split_ifs <;> exact ⟨h0, h1⟩
  | retryEmail =>
    simp only [step, handleEmailVerification]
    split_ifs <;> exact ⟨h0, h1⟩
  | selectBrandBtn b =>
    simp only [step, selectBrand]
    split_ifs <;> exact ⟨h0, h1⟩
  | removeBrandBtn b =>
    simp only [step, removeBrand]
    split_ifs <;> exact ⟨h0, h1⟩

/-- Claim C7: while the verify screen is active each one-second tick
decrements `Countdown` by exactly 1; the resend flag is untouched until
the tick that reaches 0, where it becomes `true`; once `Countdown` is 0
a tick changes nothing; and over all reachable states `Countdown` is
never negative and `canResend` is only ever `true` at `Countdown = 0`
(never before 0 is reached). -/
theorem countdown_spec :
    (∀ s : AppState, s.currentScreen = Screen.verify → 0 < s.countdown →
      (step s Act.tick).countdown = s.countdown - 1
      ∧ (1 < s.countdown → (step s Act.tick).canResend = s.canResend)
      ∧ (s.countdown = 1 → (step s Act.tick).canResend = true))
    ∧ (∀ s : AppState, s.countdown ≤ 0 → step s Act.tick = s)
    ∧ (∀ s : AppState, Reachable s →
        0 ≤ s.countdown ∧ (s.canResend = true → s.countdown = 0)) := by
  refine ⟨?_, ?_, ?_⟩
  · intro s hscr hpos
    have hg : s.currentScreen = Screen.verify ∧ 0 < s.countdown := ⟨hscr, hpos⟩
    simp only [step, countdownTick, if_pos hg, tickUpdate]
    split_ifs with hle
    · refine ⟨?_, fun hgt => ?_, fun _ => rfl⟩
      · show (0 : Int) = s.countdown - 1
        omega
      · omega
    · exact ⟨rfl, fun _ => rfl, fun h1 => absurd h1 (by omega)⟩
  · intro s hle
    simp only [step, countdownTick]
    rw [if_neg]
    rintro ⟨-, hpos⟩
    omega
  · intro s hr
    induction hr with
    | init => exact countdownInv_init
    | next s a _ ih => exact countdownInv_step s a ih

/-- Witness for C7: a concrete tick on the verify screen takes the
countdown from 60 to 59, and the initial state satisfies the reachable
invariant. -/
theorem countdown_spec_witness :
    (step { initialState with currentScreen := Screen.verify } Act.tick).countdown
      = ({ initialState with currentScreen := Screen.verify } : AppState).countdown - 1
    ∧ 0 ≤ initialState.countdown := by
  refine ⟨(countdown_spec.1 _ rfl (by decide)).1, (countdown_spec.2.2 initialState Reachable.init).1⟩

/-! ## Claim C9: the selected-brands list -/

lemma dropWhile_dropWhile (p : Char → Bool) (l : List Char) :
    (l.dropWhile p).dropWhile p = l.dropWhile p := by
  induction l with
  | nil => rfl
  | cons a t ih => by_cases hp : p a <;> simp [List.dropWhile_cons, hp, ih]

lemma trimStart_trimStart (s : List Char) : trimStart (trimStart s) = trimStart s :=
  dropWhile_dropWhile _ s

/-- A prefix of a list with no leading whitespace has no leading
whitespace either. -/
lemma trimStart_eq_self_of_prefixOf (u t : List Char) (hp : u <+: t)
    (ht : trimStart t = t) : trimStart u = u := by
  obtain ⟨r, rfl⟩ := hp
  cases u with
  | nil => rfl
  | cons a u' =>
    by_cases ha : a.isWhitespace
    · exfalso
      simp only [trimStart, List.cons_append, List.dropWhile_cons, ha, if_true] at ht
      have hlen := congrArg List.length ht
      have hle := (List.dropWhile_sublist (l := u' ++ r) (fun c => c.isWhitespace)).length_le
      rw [List.length_cons] at hlen
      omega
    · simp [trimStart, List.dropWhile_cons, ha]

lemma trimEnd_prefixOf (t : List Char) : trimEnd t <+: t := by
  have h := List.dropWhile_suffix (l := t.reverse) (fun c => c.isWhitespace)
  have h2 := List.reverse_prefix.mpr h
  simpa [trimEnd] using h2

lemma trimEnd_trimEnd (s : List Char) : trimEnd (trimEnd s) = trimEnd s := by
  simp [trimEnd, List.reverse_reverse, dropWhile_dropWhile]

lemma trim_trim (s : List Char) : trim (trim s) = trim s := by
  have ht : trimStart (trimStart s) = trimStart s := trimStart_trimStart s
  have h5 : trimStart (trimEnd (trimStart s)) = trimEnd (trimStart s) :=
    trimStart_eq_self_of_prefixOf _ _ (trimEnd_prefixOf (trimStart s)) ht
  show trimEnd (trimStart (trimEnd (trimStart s))) = trimEnd (trimStart s)
  rw [h5, trimEnd_trimEnd]

lemma mem_of_mem_trim (c : Char) (s : List Char) (h : c ∈ trim s) : c ∈ s := by
  have h1 : c ∈ trimStart s := (trimEnd_prefixOf (trimStart s)).sublist.subset h
  exact (List.dropWhile_sublist _).subset h1

lemma trim_cons_space (q : List Char) : trim (' ' :: q) = trim q := by
  simp [trim, trimStart, List.dropWhile_cons]

lemma splitOnComma_ne_nil (s : List Char) : splitOnComma s ≠ [] := by
  induction s with
  | nil => simp [splitOnComma]
  | cons c rest ih =>
    simp only [splitOnComma]
    split_ifs
    · simp
    · cases h : splitOnComma rest with
      | nil => exact absurd h ih
      | cons q qs => simp

lemma splitOnComma_no_comma (s : List Char) :
    ∀ p ∈ splitOnComma s, ',' ∉ p := by
  induction s with
  | nil =>
    intro p hp
    simp [splitOnComma] at hp
    simp [hp]
  | cons c rest ih =>
    intro p hp
    simp only [splitOnComma] at hp
    split_ifs at hp with hc
    · rcases List.mem_cons.mp hp with h | h
      · simp [h]
      · exact ih p h
    · cases h : splitOnComma rest with
      | nil => exact absurd h (splitOnComma_ne_nil rest)
      | cons q qs =>
        rw [h] at hp
        rcases List.mem_cons.mp hp with h2 | h2
        · subst h2
          intro hm
          rcases List.mem_cons.mp hm with h3 | h3
          · exact hc h3.symm
          · exact ih q (h ▸ List.mem_cons_self q qs) h3
        · exact ih p (h ▸ List.mem_cons_of_mem q h2)

lemma splitOnComma_eq_single (s : List Char) (h : ',' ∉ s) :
    splitOnComma s = [s] := by
  induction s with
  | nil => rfl
  | cons c rest ih =>
    have hc : ¬ c = ',' := fun hcc => h (hcc ▸ List.mem_cons_self c rest)
    have hrest : ',' ∉ rest := fun hm => h (List.mem_cons_of_mem c hm)
    simp only [splitOnComma, hc, if_false, ih hrest]

lemma splitOnComma_append (x y : List Char) (hx : ',' ∉ x) :
    splitOnComma (x ++ ',' :: y) = x :: splitOnComma y := by
  induction x with
  | nil => simp [splitOnComma]
  | cons c x' ih =>
    have hc : ¬ c = ',' := fun hcc => hx (hcc ▸ List.mem_cons_self c x')
    have hx' : ',' ∉ x' := fun hm => hx (List.mem_cons_of_mem c hm)
    rw [List.cons_append]
    simp only [splitOnComma, hc, if_false]
    rw [ih hx']

lemma map_trim_splitOnComma_cons_space (z : List Char) :
    (splitOnComma (' ' :: z)).map trim = (splitOnComma z).map trim := by
  cases h : splitOnComma z with
  | nil => exact absurd h (splitOnComma_ne_nil z)
  | cons q qs =>
    have hsp : ¬ (' ' = ','):= by decide
    simp only [splitOnComma, hsp, if_false, h, List.map_cons, trim_cons_space]

lemma joinCommaSpace_cons (p : List Char) (rest : List (List Char)) (h : rest ≠ []) :
    joinCommaSpace (p :: rest) = p ++ ',' :: ' ' :: joinCommaSpace rest := by
  cases rest with
  | nil => exact absurd rfl h
  | cons r1 r2 => rfl

lemma joinCommaSpace_append_singleton_ne_nil (sel : List (List Char)) (b : List Char)
    (hb : b ≠ []) : joinCommaSpace (sel ++ [b]) ≠ [] := by
  cases sel with
  | nil => simpa [joinCommaSpace] using hb
  | cons p rest =>
    rw [List.cons_append, joinCommaSpace_cons p (rest ++ [b]) (by simp)]
    simp

/-- Splitting the `", "`-join of trimmed, comma-free parts and trimming
again recovers exactly the parts. -/
lemma map_trim_splitOnComma_joinCommaSpace (sel : List (List Char)) (b : List Char)
    (hsel : ∀ x ∈ sel, ',' ∉ x ∧ trim x = x) (hb : ',' ∉ b) (htb : trim b = b) :
    (splitOnComma (joinCommaSpace (sel ++ [b]))).map trim = sel ++ [b] := by
  induction sel with
  | nil =>
    simp only [List.nil_append, joinCommaSpace, splitOnComma_eq_single b hb,
      List.map_cons, List.map_nil, htb]
  | cons p rest ih =>
    obtain ⟨hpc, hpt⟩ := hsel p (List.mem_cons_self p rest)
    rw [List.cons_append, joinCommaSpace_cons p (rest ++ [b]) (by simp),
      splitOnComma_append p _ hpc, List.map_cons, hpt,
      map_trim_splitOnComma_cons_space,
      ih (fun x hx => hsel x (List.mem_cons_of_mem p hx))]

lemma getSelectedBrands_join (sel : List (List Char)) (b : List Char)
    (hsel : ∀ x ∈ sel, ',' ∉ x ∧ trim x = x) (hb : ',' ∉ b) (htb : trim b = b)
    (hbne : b ≠ []) :
    getSelectedBrands (joinCommaSpace (sel ++ [b])) = sel ++ [b] := by
  have hne := joinCommaSpace_append_singleton_ne_nil sel b hbne
  unfold getSelectedBrands
  rw [if_neg (by simpa [List.isEmpty_iff] using hne),
    map_trim_splitOnComma_joinCommaSpace sel b hsel hb htb]

/-- Every entry of the derived selected-brands list is trimmed and
comma-free. -/
lemma getSelectedBrands_props (fav : List Char) :
    ∀ x ∈ getSelectedBrands fav, ',' ∉ x ∧ trim x = x := by
  intro x hx
  unfold getSelectedBrands at hx
  split_ifs at hx with h
  · exact absurd hx (List.not_mem_nil x)
  · obtain ⟨p, hp, rfl⟩ := List.mem_map.mp hx
    exact ⟨fun hm => splitOnComma_no_comma fav p hp (mem_of_mem_trim ',' p hm),
      trim_trim p⟩

/-- Claim C9: the selected-brands list is derived from
`favoriteDesigners` by splitting on commas and trimming;
`selectBrand b` leaves `favoriteDesigners` unchanged whenever `b` is
already among the selected brands, otherwise it appends `b` to the
comma-joined list; and per brand (an entry of `LUXURY_BRANDS`, the only
values the UI ever passes) `selectBrand` is idempotent. -/
theorem selectBrand_spec (s : AppState) (b : List Char) :
    (b ∈ getSelectedBrands s.profile.favoriteDesigners → selectBrand s b = s)
    ∧ (b ∉ getSelectedBrands s.profile.favoriteDesigners →
        (selectBrand s b).profile.favoriteDesigners
          = joinCommaSpace (getSelectedBrands s.profile.favoriteDesigners ++ [b]))
    ∧ (b ∈ LUXURY_BRANDS → selectBrand (selectBrand s b) b = selectBrand s b) := by
  refine ⟨?_, ?_, ?_⟩
  · intro hmem
    simp only [selectBrand]
    rw [if_pos hmem]
  · intro hmem
    simp only [selectBrand]
    rw [if_neg hmem]
  · intro hb
    have hprops : ∀ x ∈ LUXURY_BRANDS, ',' ∉ x ∧ trim x = x ∧ x ≠ [] := by decide
    obtain ⟨hbc, htb, hbne⟩ := hprops b hb
    by_cases hmem : b ∈ getSelectedBrands s.profile.favoriteDesigners
    · rw [show selectBrand s b = s from by simp only [selectBrand]; rw [if_pos hmem]]
      simp only [selectBrand]
      rw [if_pos hmem]
    · have hstep : selectBrand s b =
          { s with profile :=
              { s.profile with favoriteDesigners :=
                  joinCommaSpace (getSelectedBrands s.profile.favoriteDesigners ++ [b]) } } := by
        simp only [selectBrand]
        rw [if_neg hmem]
      rw [hstep]
      have hmem2 : b ∈ getSelectedBrands
          (joinCommaSpace (getSelectedBrands s.profile.favoriteDesigners ++ [b])) := by
        rw [getSelectedBrands_join _ b (getSelectedBrands_props _) hbc htb hbne]
        exact List.mem_append_right _ (List.mem_cons_self b [])
      simp only [selectBrand]
      split_ifs
      rfl

/-- A registration state with two brands already picked. -/
def brandState : AppState :=
  { initialState with
    profile := { emptyProfile with favoriteDesigners := "Gucci, Dior".toList } }

/-- Witness for C9: selecting an already-selected brand is a no-op,
selecting a fresh brand appends it, and re-selecting it changes
nothing. -/
theorem selectBrand_spec_witness :
    selectBrand brandState "Gucci".toList = brandState
    ∧ (selectBrand brandState "Chanel".toList).profile.favoriteDesigners
        = joinCommaSpace (getSelectedBrands brandState.profile.favoriteDesigners
            ++ ["Chanel".toList])
    ∧ selectBrand (selectBrand brandState "Chanel".toList) "Chanel".toList
        = selectBrand brandState "Chanel".toList := by
  have h1 := selectBrand_spec brandState "Gucci".toList
  have h2 := selectBrand_spec brandState "Chanel".toList
  exact ⟨h1.1 (by decide), h2.2.1 (by decide), h2.2.2 (by decide)⟩
